import Mathlib

/-!
Verification of the Largest Contentful Paint (LCP) core of the repository.

The development shallowly embeds the Rust sources:
* components/shared/compositing/largest_contentful_paint_candidate.rs
* components/compositing/largest_contentful_paint.rs
* components/layout/display_list/largest_contenful_paint_collector.rs

Machine scalars are idealized: `CrossProcessInstant` and `Epoch` (u32) become
naturals (only ordering is used by the code), and `f32` layout coordinates
become rationals.  The wall-clock fallback `CrossProcessInstant::now()` inside
`ImageCandidate::paint_time()` is modelled by an explicit `now` argument that
is threaded through every function that can reach that accessor.
-/

namespace LCPSpec

/-- Timestamps: `base::cross_process_instant::CrossProcessInstant`, idealized as a
natural number (the code only ever compares timestamps). -/
abbrev Instant := Nat

/-- Frame generations: `webrender_api::Epoch` (a `u32`), idealized as a natural
number (the code only ever compares epochs). -/
abbrev Epoch := Nat

/-- `webrender_api::PipelineId`, idealized as a natural number key. -/
abbrev PipelineId := Nat

/-- `LCPCandidateTag(usize)` from largest_contentful_paint_candidate.rs. -/
abbrev LCPCandidateTag := Nat

/-- `LCPCandidateTag::INVALID = LCPCandidateTag(0)`. -/
def LCPCandidateTag.INVALID : LCPCandidateTag := 0

/-- `ImageCandidate` from largest_contentful_paint_candidate.rs. -/
structure ImageCandidate where
  tag : LCPCandidateTag
  size : Nat
  epoch : Epoch
  paint_time : Option Instant
deriving DecidableEq

/-- `ImageCandidate::new(tag, size, epoch)`: paint_time starts out `None`. -/
def ImageCandidate.new (tag : Nat) (size : Nat) (epoch : Epoch) : ImageCandidate :=
  ⟨tag, size, epoch, none⟩

/-- `ImageCandidate::default()`: invalid tag, zero size, invalid epoch.  The
invalid epoch `u32::MAX` is idealized as `2 ^ 32 - 1`. -/
def ImageCandidate.default : ImageCandidate :=
  ⟨LCPCandidateTag.INVALID, 0, 2 ^ 32 - 1, none⟩

/-- `ImageCandidate::paint_time()`: `self.paint_time.unwrap_or(CrossProcessInstant::now())`.
The nondeterministic `now()` is the explicit argument. -/
def ImageCandidate.paint_time_or_now (c : ImageCandidate) (now : Instant) : Instant :=
  c.paint_time.getD now

/-- `LargestContentfulPaint` public result type. -/
structure LargestContentfulPaint where
  tag : LCPCandidateTag
  size : Nat
  paint_time : Instant
deriving DecidableEq

/-- `impl From<&ImageCandidate> for LargestContentfulPaint`, which calls the
`paint_time()` accessor (hence the `now` argument). -/
def LargestContentfulPaint.ofCandidate (now : Instant) (c : ImageCandidate) :
    LargestContentfulPaint :=
  ⟨c.tag, c.size, c.paint_time_or_now now⟩

/-- `LCPCandidates` transport record. -/
structure LCPCandidates where
  image_candidate : Option ImageCandidate
deriving DecidableEq

/-- `ImageLargestContentfulPaintCalculator` from largest_contentful_paint.rs. -/
structure ImageLargestContentfulPaintCalculator where
  candidates : List ImageCandidate
  largest_image : Option ImageCandidate
deriving DecidableEq

/-- The `match self.largest_image` body inside the resolve loop of
`ImageLargestContentfulPaintCalculator::calculate_largest_contentful_paint`:
fold one (already stamped) candidate into `largest_image`. -/
def foldLargest (now : Instant) (largest : Option ImageCandidate) (c : ImageCandidate) :
    Option ImageCandidate :=
  match largest with
  | none => some c
  | some li =>
    if li.size < c.size ∨
        (li.size = c.size ∧ li.paint_time_or_now now > c.paint_time_or_now now) then
      some c
    else
      some li

/-- One iteration of the `for mut candidate in candidates` loop: a candidate with
`epoch() > cur_epoch` is pushed back onto the pending vector, any other candidate
is stamped with `paint_time` and folded into `largest_image`. -/
def resolveStep (now paint_time : Instant) (cur_epoch : Epoch)
    (acc : List ImageCandidate × Option ImageCandidate) (c : ImageCandidate) :
    List ImageCandidate × Option ImageCandidate :=
  if c.epoch > cur_epoch then
    (acc.1 ++ [c], acc.2)
  else
    (acc.1, foldLargest now acc.2 { c with paint_time := some paint_time })

/-- `ImageLargestContentfulPaintCalculator::calculate_largest_contentful_paint`:
returns the new calculator state (the Rust method mutates `self`) together with
the returned `Option<LargestContentfulPaint>`. -/
def ImageLargestContentfulPaintCalculator.calculate_largest_contentful_paint
    (s : ImageLargestContentfulPaintCalculator) (paint_time : Instant) (cur_epoch : Epoch)
    (now : Instant) :
    ImageLargestContentfulPaintCalculator × Option LargestContentfulPaint :=
  if s.candidates = [] then
    (s, s.largest_image.map (LargestContentfulPaint.ofCandidate now))
  else
    let r := s.candidates.foldl (resolveStep now paint_time cur_epoch) ([], s.largest_image)
    (⟨r.1, r.2⟩, r.2.map (LargestContentfulPaint.ofCandidate now))

/-- Per-pipeline `LargestContentfulPaintCalculator`. -/
structure LargestContentfulPaintCalculator where
  image_calculator : ImageLargestContentfulPaintCalculator
  lcp : Option LargestContentfulPaint
deriving DecidableEq

/-- The value inserted by `ensure_lcp_calculator`'s `or_insert`: default image
calculator and `lcp: None`. -/
def freshCalculator : LargestContentfulPaintCalculator := ⟨⟨[], none⟩, none⟩

/-- `LargestContentfulPaintDetector`: the per-pipeline `HashMap` is modelled as a
function into `Option`. -/
structure LargestContentfulPaintDetector where
  lcp_calculators : PipelineId → Option LargestContentfulPaintCalculator

/-- `LargestContentfulPaintDetector::new()` / `Default`: an empty map. -/
def LargestContentfulPaintDetector.new : LargestContentfulPaintDetector :=
  ⟨fun _ => none⟩

/-- Map update: the write-back half of working through the `&mut` reference
returned by `ensure_lcp_calculator`. -/
def LargestContentfulPaintDetector.setCalc (d : LargestContentfulPaintDetector)
    (p : PipelineId) (cal : LargestContentfulPaintCalculator) :
    LargestContentfulPaintDetector :=
  ⟨fun q => if q = p then some cal else d.lcp_calculators q⟩

/-- The read half of `ensure_lcp_calculator`: the existing entry, or the fresh
calculator that `or_insert` would create. -/
def LargestContentfulPaintDetector.getCalc (d : LargestContentfulPaintDetector)
    (p : PipelineId) : LargestContentfulPaintCalculator :=
  (d.lcp_calculators p).getD freshCalculator

/-- `LargestContentfulPaintDetector::append_lcp_candidates`: when the record
carries an image candidate, push it onto that pipeline's pending vector
(creating the calculator lazily); otherwise nothing happens (the Rust code only
calls `ensure_lcp_calculator` inside the `if let`). -/
def LargestContentfulPaintDetector.append_lcp_candidates
    (d : LargestContentfulPaintDetector) (p : PipelineId) (cands : LCPCandidates) :
    LargestContentfulPaintDetector :=
  match cands.image_candidate with
  | none => d
  | some c =>
    let cal := d.getCalc p
    d.setCalc p
      { cal with
        image_calculator :=
          { cal.image_calculator with
            candidates := cal.image_calculator.candidates ++ [c] } }

/-- `LargestContentfulPaintDetector::pick_largest_contentful_paint` (match arms in
source order). -/
def LargestContentfulPaintDetector.pick_largest_contentful_paint :
    Option LargestContentfulPaint → Option LargestContentfulPaint →
      Option LargestContentfulPaint
  | c1, none => c1
  | none, some c2 => some c2
  | some c1, some c2 =>
    if c1.size > c2.size ∨ (c1.size = c2.size ∧ c1.paint_time ≤ c2.paint_time) then
      some c1
    else
      some c2

/-- `LargestContentfulPaintDetector::calculate_largest_contentful_paint`: resolve
the pipeline's image calculator, pick against the stored `lcp`, return `None` if
unchanged, otherwise store and return the new value.  The mutated image
calculator is written back in either case. -/
def LargestContentfulPaintDetector.calculate_largest_contentful_paint
    (d : LargestContentfulPaintDetector) (paint_time : Instant) (epoch : Epoch)
    (p : PipelineId) (now : Instant) :
    LargestContentfulPaintDetector × Option LargestContentfulPaint :=
  let cal := d.getCalc p
  let r := cal.image_calculator.calculate_largest_contentful_paint paint_time epoch now
  let candidate := LargestContentfulPaintDetector.pick_largest_contentful_paint r.2 cal.lcp
  if candidate = cal.lcp then
    (d.setCalc p ⟨r.1, cal.lcp⟩, none)
  else
    (d.setCalc p ⟨r.1, candidate⟩, candidate)

/-- The two external operations on one detector. -/
inductive DetectorOp where
  | append (p : PipelineId) (cands : LCPCandidates)
  | calculate (p : PipelineId) (paint_time : Instant) (epoch : Epoch)
deriving DecidableEq

/-- One detector step: `append_lcp_candidates` produces no output,
`calculate_largest_contentful_paint` produces its return value. -/
def stepDetector (now : Instant) (d : LargestContentfulPaintDetector) :
    DetectorOp → LargestContentfulPaintDetector × Option LargestContentfulPaint
  | DetectorOp.append p cands => (d.append_lcp_candidates p cands, none)
  | DetectorOp.calculate p t g => d.calculate_largest_contentful_paint t g p now

/-- Run a sequence of operations, keeping only the final state. -/
def runDetector (now : Instant) (d : LargestContentfulPaintDetector)
    (ops : List DetectorOp) : LargestContentfulPaintDetector :=
  ops.foldl (fun d op => (stepDetector now d op).1) d

/-- Run a sequence of operations, collecting each step's output. -/
def runOutputs (now : Instant) (d : LargestContentfulPaintDetector) :
    List DetectorOp → List (Option LargestContentfulPaint)
  | [] => []
  | op :: rest =>
    (stepDetector now d op).2 :: runOutputs now (stepDetector now d op).1 rest

/-- The timestamps passed to `calculate_largest_contentful_paint` calls in an
operation sequence. -/
def calcTimes (ops : List DetectorOp) : List Instant :=
  ops.filterMap fun op =>
    match op with
    | DetectorOp.calculate _ t _ => some t
    | _ => none

/-- The confirmed-painted generations observed for pipeline `p` in an operation
sequence. -/
def confirmedEpochs (ops : List DetectorOp) (p : PipelineId) : List Epoch :=
  ops.filterMap fun op =>
    match op with
    | DetectorOp.calculate q _ g => if q = p then some g else none
    | _ => none

/-- The pending candidate vector of pipeline `p` (empty when no calculator
exists yet). -/
def pendingOf (d : LargestContentfulPaintDetector) (p : PipelineId) :
    List ImageCandidate :=
  ((d.lcp_calculators p).map fun cal => cal.image_calculator.candidates).getD []

/-- The stored `lcp` field of pipeline `p`'s calculator, if any. -/
def lcpOf (d : LargestContentfulPaintDetector) (p : PipelineId) :
    Option LargestContentfulPaint :=
  (d.lcp_calculators p).bind fun cal => cal.lcp

/-! ## Geometry: euclid rectangles and transforms over ℚ

`webrender_api::units::LayoutRect` is `euclid::Box2D<f32>`; coordinates are
idealized as rationals.  The operations below follow the euclid sources the
collector calls into. -/

/-- `euclid::Box2D`, coordinates idealized as rationals. -/
structure Box2D where
  minX : ℚ
  minY : ℚ
  maxX : ℚ
  maxY : ℚ
deriving DecidableEq

/-- `Box2D::zero()`. -/
def Box2D.zero : Box2D := ⟨0, 0, 0, 0⟩

/-- `Box2D::width()`. -/
def Box2D.width (b : Box2D) : ℚ := b.maxX - b.minX

/-- `Box2D::height()`. -/
def Box2D.height (b : Box2D) : ℚ := b.maxY - b.minY

/-- `Box2D::area()` = width × height. -/
def Box2D.area (b : Box2D) : ℚ := b.width * b.height

/-- `Box2D::is_empty()`: not strictly positive in both dimensions. -/
def Box2D.is_empty (b : Box2D) : Bool :=
  decide (b.maxX ≤ b.minX) || decide (b.maxY ≤ b.minY)

/-- `Box2D::intersection_unchecked`. -/
def Box2D.intersection_unchecked (a b : Box2D) : Box2D :=
  ⟨max a.minX b.minX, max a.minY b.minY, min a.maxX b.maxX, min a.maxY b.maxY⟩

/-- `Box2D::intersection`: `None` when the unchecked intersection is empty. -/
def Box2D.intersection (a b : Box2D) : Option Box2D :=
  let r := a.intersection_unchecked b
  if r.is_empty then none else some r

/-- `Box2D::translate`. -/
def Box2D.translate (b : Box2D) (vx vy : ℚ) : Box2D :=
  ⟨b.minX + vx, b.minY + vy, b.maxX + vx, b.maxY + vy⟩

/-- `Box2D::from_size`: anchored at the origin. -/
def Box2D.from_size (w h : ℚ) : Box2D := ⟨0, 0, w, h⟩

/-- `Box2D::from_points` on the four transformed corners: the bounding box. -/
def Box2D.from_points4 (p1 p2 p3 p4 : ℚ × ℚ) : Box2D :=
  ⟨min (min p1.1 p2.1) (min p3.1 p4.1), min (min p1.2 p2.2) (min p3.2 p4.2),
   max (max p1.1 p2.1) (max p3.1 p4.1), max (max p1.2 p2.2) (max p3.2 p4.2)⟩

/-- `euclid::Transform3D`, restricted to the components that
`transform_point2d` reads. -/
structure Transform3D where
  m11 : ℚ
  m12 : ℚ
  m14 : ℚ
  m21 : ℚ
  m22 : ℚ
  m24 : ℚ
  m41 : ℚ
  m42 : ℚ
  m44 : ℚ
deriving DecidableEq

/-- `Transform3D::transform_point2d`: homogeneous transform with perspective
divide; `None` when the resulting `w` is not positive. -/
def Transform3D.transform_point2d (m : Transform3D) (x y : ℚ) : Option (ℚ × ℚ) :=
  let w := x * m.m14 + y * m.m24 + m.m44
  if 0 < w then
    some ((x * m.m11 + y * m.m21 + m.m41) / w, (x * m.m12 + y * m.m22 + m.m42) / w)
  else
    none

/-- `Transform3D::outer_transformed_box2d`: bounding box of the four transformed
corners, `None` when any corner fails to project. -/
def Transform3D.outer_transformed_box2d (m : Transform3D) (b : Box2D) : Option Box2D :=
  match m.transform_point2d b.minX b.minY, m.transform_point2d b.maxX b.minY,
      m.transform_point2d b.maxX b.maxY, m.transform_point2d b.minX b.maxY with
  | some p1, some p2, some p3, some p4 => some (Box2D.from_points4 p1 p2 p3 p4)
  | _, _, _, _ => none

/-- A pure translation transform (identity linear part, no perspective). -/
def Transform3D.translation (tx ty : ℚ) : Transform3D :=
  ⟨1, 0, 0, 0, 1, 0, tx, ty, 1⟩

/-! ## Scroll tree and clip tree

`compositing_traits::display_list::ScrollTree` and
`layout::display_list::clip::StackingContextTreeClipStore` are repository code
outside the excerpted sources; they are modelled from the spec. -/

/-- Modelled from the spec: a scroll node is a plain scroll box or a
reference frame carrying an origin and a geometric transform
(`SpatialTreeNodeInfo`). -/
inductive SpatialTreeNodeInfo where
  | referenceFrame (originX originY : ℚ) (transform : Transform3D)
  | other
deriving DecidableEq

/-- Modelled from the spec: each scroll node has an optional parent and a node
kind. -/
structure ScrollTreeNode where
  parent : Option Nat
  info : SpatialTreeNodeInfo
deriving DecidableEq

/-- Modelled from the spec: the externally owned scroll/transform tree, queried
by node identity (`ScrollTree`). -/
structure ScrollTree where
  nodes : List ScrollTreeNode
deriving DecidableEq

/-- Modelled from the spec: `ScrollTree::get_node`, an index-based lookup. -/
def ScrollTree.get_node (t : ScrollTree) (i : Nat) : ScrollTreeNode :=
  t.nodes.getD i ⟨none, SpatialTreeNodeInfo.other⟩

/-- Modelled from the spec: clip node identities, with the sentinel
`ClipId::INVALID` marking no further clipping at this level. -/
abbrev ClipId := Nat

/-- Modelled from the spec: the INVALID sentinel identity. -/
def ClipId.INVALID : ClipId := 0

/-- Modelled from the spec: a clip node has an identity, a rectangle, a parent
scroll-node association and a parent-clip link (`Clip`). -/
structure Clip where
  id : ClipId
  rect : Box2D
  parent_scroll_node_id : Nat
  parent_clip_id : ClipId
deriving DecidableEq

/-- Modelled from the spec: the clip store
(`StackingContextTreeClipStore`), queried by node identity. -/
abbrev ClipStore := List Clip

/-- Modelled from the spec: `StackingContextTreeClipStore::get_node`. -/
def getClipNode (s : ClipStore) (i : ClipId) : Option Clip :=
  s.find? fun c => c.id == i

/-- `LargestContentfulPaintCollector` from
largest_contenful_paint_collector.rs (keeping the source's field spelling
`largerst_image`). -/
structure LargestContentfulPaintCollector where
  clip_tree : ClipStore
  current_scroll_node_id : Nat
  current_clip_id : ClipId
  largerst_image : Option ImageCandidate
  lcp_candidates : LCPCandidates
deriving DecidableEq

/-- `LargestContentfulPaintCollector::update_current_node_id`. -/
def LargestContentfulPaintCollector.update_current_node_id
    (col : LargestContentfulPaintCollector) (next_scroll_node_id : Nat)
    (next_clip_id : ClipId) : LargestContentfulPaintCollector :=
  { col with
    current_scroll_node_id := next_scroll_node_id
    current_clip_id := next_clip_id }

/-- `apply_clip_to_visual_rect`: an INVALID clip node leaves the rectangle
unchanged and adopts the node's own identity; otherwise intersect with the
clip rectangle (empty intersection collapses to `Box2D::zero()`) and advance to
the parent clip. Returns the new rectangle and the new `parent_clip_id`. -/
def apply_clip_to_visual_rect (clip_node : Clip) (rect : Box2D) : Box2D × ClipId :=
  if clip_node.id = ClipId.INVALID then
    (rect, clip_node.id)
  else
    ((clip_node.rect.intersection rect).getD Box2D.zero, clip_node.parent_clip_id)

/-- `apply_transform_to_visual_rect`: a reference frame transforms the rectangle
by its transform's outer bounding box (degenerate transform collapses to
`Box2D::zero()`) and translates by the frame origin; other nodes pass the
rectangle through. Returns the new rectangle and the node's parent. -/
def apply_transform_to_visual_rect (scroll_tree : ScrollTree) (scroll_id : Nat)
    (rect : Box2D) : Box2D × Option Nat :=
  let node := scroll_tree.get_node scroll_id
  let visual :=
    match node.info with
    | SpatialTreeNodeInfo.referenceFrame ox oy tr =>
      match tr.outer_transformed_box2d rect with
      | some r => r.translate ox oy
      | none => Box2D.zero
    | SpatialTreeNodeInfo.other => rect
  (visual, node.parent)

/-- `compute_visual_rect_with_scroll_clip`: recursive ancestor walk.  The Rust
recursion terminates because the scroll tree's parent chains are acyclic; the
explicit fuel bounds the chain length (the wrapper passes one more than the
number of nodes, which covers every acyclic parent chain). -/
def compute_visual_rect_with_scroll_clip (clipTree : ClipStore)
    (scrollTree : ScrollTree) :
    Nat → Box2D → Option Nat → ClipId → Box2D
  | 0, rect, _, _ => rect
  | _ + 1, rect, none, _ => rect
  | fuel + 1, rect, some sid, clip_id =>
    let clipped :=
      match (getClipNode clipTree clip_id).filter
          (fun n => n.parent_scroll_node_id == sid) with
      | some cn => apply_clip_to_visual_rect cn rect
      | none => (rect, clip_id)
    let stepped := apply_transform_to_visual_rect scrollTree sid clipped.1
    if stepped.1.is_empty then
      stepped.1
    else
      compute_visual_rect_with_scroll_clip clipTree scrollTree fuel stepped.1
        stepped.2 clipped.2

/-- `LargestContentfulPaintCollector::compute_visual_rect`: walk up from the
current scroll/clip position, then intersect with the viewport. -/
def LargestContentfulPaintCollector.compute_visual_rect
    (col : LargestContentfulPaintCollector) (rect : Box2D)
    (scroll_tree : ScrollTree) (viewport_w viewport_h : ℚ) : Box2D :=
  let visual := compute_visual_rect_with_scroll_clip col.clip_tree scroll_tree
    (scroll_tree.nodes.length + 1) rect (some col.current_scroll_node_id)
    col.current_clip_id
  let viewport := Box2D.from_size viewport_w viewport_h
  (visual.intersection viewport).getD Box2D.zero

/-- The `visual_rect.area() as usize` cast: truncation toward zero, negatives
collapsing to zero. -/
def areaToUsize (q : ℚ) : Nat := (Rat.floor q).toNat

/-- `LargestContentfulPaintCollector::record_image_candidate`. -/
def LargestContentfulPaintCollector.record_image_candidate
    (col : LargestContentfulPaintCollector) (tag : Nat) (rect : Box2D)
    (viewport_w viewport_h : ℚ) (scroll_tree : ScrollTree) (epoch : Epoch) :
    LargestContentfulPaintCollector :=
  let visual_rect := col.compute_visual_rect rect scroll_tree viewport_w viewport_h
  let size := areaToUsize visual_rect.area
  if size = 0 then
    col
  else
    match col.largerst_image with
    | some largest_image =>
      if largest_image.size < size then
        { col with largerst_image := some (ImageCandidate.new tag size epoch) }
      else
        col
    | none => { col with largerst_image := some (ImageCandidate.new tag size epoch) }

/-- `LargestContentfulPaintCollector::update_largest_contentful_paint_candiate`:
`take()` moves the held candidate into the outgoing record. -/
def LargestContentfulPaintCollector.update_largest_contentful_paint_candiate
    (col : LargestContentfulPaintCollector) : LargestContentfulPaintCollector :=
  { col with
    lcp_candidates := ⟨col.largerst_image⟩
    largerst_image := none }

/-- Modelled from the spec (refinement comparison for the resolve fold): replace
`best_resolved` with the new candidate if the new candidate's size is strictly
greater, or the sizes are equal and the new candidate's paint time is strictly
earlier than the current `best_resolved`'s paint time. -/
def resolveFoldSpec (best : Option ImageCandidate) (c : ImageCandidate) :
    Option ImageCandidate :=
  match best with
  | none => some c
  | some b =>
    if c.size > b.size ∨ (c.size = b.size ∧ c.paint_time.getD 0 < b.paint_time.getD 0) then
      some c
    else
      some b

/-- Paint-time provenance predicate: every candidate held in `b` carries a stamp
satisfying `P`. -/
def LargestPT (P : Instant → Prop) (b : Option ImageCandidate) : Prop :=
  ∀ c, b = some c → ∃ u, P u ∧ c.paint_time = some u

/-- Paint-time provenance over a whole detector: every stored `largest_image`
stamp and every stored `lcp` paint time satisfies `P`. -/
def DetectorPT (P : Instant → Prop) (d : LargestContentfulPaintDetector) : Prop :=
  ∀ p cal, d.lcp_calculators p = some cal →
    LargestPT P cal.image_calculator.largest_image ∧
      ∀ l, cal.lcp = some l → P l.paint_time

/-- The image-calculator resolve performed inside the detector's
`calculate_largest_contentful_paint` for pipeline `p`. -/
def resolvedImage (d : LargestContentfulPaintDetector) (t : Instant) (g : Epoch)
    (p : PipelineId) (now : Instant) :
    ImageLargestContentfulPaintCalculator × Option LargestContentfulPaint :=
  (d.getCalc p).image_calculator.calculate_largest_contentful_paint t g now

/-- The `candidate` picked inside the detector's
`calculate_largest_contentful_paint` from the newly resolved image candidate
and the stored `lcp`. -/
def pickedCandidate (d : LargestContentfulPaintDetector) (t : Instant) (g : Epoch)
    (p : PipelineId) (now : Instant) : Option LargestContentfulPaint :=
  LargestContentfulPaintDetector.pick_largest_contentful_paint
    (resolvedImage d t g p now).2 (d.getCalc p).lcp

/-! ## Lemmas about the detector map -/

theorem setCalc_self (d : LargestContentfulPaintDetector) (p : PipelineId)
    (cal : LargestContentfulPaintCalculator) :
    (d.setCalc p cal).lcp_calculators p = some cal := by
  simp [LargestContentfulPaintDetector.setCalc]

theorem setCalc_ne (d : LargestContentfulPaintDetector) (p q : PipelineId)
    (cal : LargestContentfulPaintCalculator) (h : q ≠ p) :
    (d.setCalc p cal).lcp_calculators q = d.lcp_calculators q := by
  simp [LargestContentfulPaintDetector.setCalc, h]

/-! ## Lemmas about the image calculator's resolve loop -/

theorem foldl_resolveStep (now t g : Instant) (l : List ImageCandidate)
    (pend : List ImageCandidate) (b : Option ImageCandidate) :
    l.foldl (resolveStep now t g) (pend, b) =
      (pend ++ l.filter (fun c => decide (g < c.epoch)),
        (l.filter fun c => !decide (g < c.epoch)).foldl
          (fun b c => foldLargest now b { c with paint_time := some t }) b) := by
  induction l generalizing pend b with
  | nil => simp
  | cons c l ih =>
    by_cases h : g < c.epoch
    · simpa [resolveStep, h] using ih (pend ++ [c]) b
    · simpa [resolveStep, h] using
        ih pend (foldLargest now b { c with paint_time := some t })

/-- Closed form of
`ImageLargestContentfulPaintCalculator::calculate_largest_contentful_paint`:
the pending vector keeps exactly the not-yet-confirmed candidates in order, and
the confirmed ones are stamped and folded into `largest_image` in order. -/
theorem calculate_eq (s : ImageLargestContentfulPaintCalculator)
    (t g now : Instant) :
    s.calculate_largest_contentful_paint t g now =
      (⟨s.candidates.filter (fun c => decide (g < c.epoch)),
        (s.candidates.filter fun c => !decide (g < c.epoch)).foldl
          (fun b c => foldLargest now b { c with paint_time := some t })
          s.largest_image⟩,
        ((s.candidates.filter fun c => !decide (g < c.epoch)).foldl
          (fun b c => foldLargest now b { c with paint_time := some t })
          s.largest_image).map (LargestContentfulPaint.ofCandidate now)) := by
  unfold ImageLargestContentfulPaintCalculator.calculate_largest_contentful_paint
  by_cases h : s.candidates = []
  · cases s with
    | mk cands li => simp_all
  · rw [if_neg h, foldl_resolveStep]
    simp

theorem calculate_snd_eq (s : ImageLargestContentfulPaintCalculator)
    (t g now : Instant) :
    (s.calculate_largest_contentful_paint t g now).2 =
      ((s.calculate_largest_contentful_paint t g now).1.largest_image).map
        (LargestContentfulPaint.ofCandidate now) := by
  rw [calculate_eq]

theorem calculate_pending_gt (s : ImageLargestContentfulPaintCalculator)
    (t g now : Instant) :
    ∀ c ∈ (s.calculate_largest_contentful_paint t g now).1.candidates,
      g < c.epoch := by
  rw [calculate_eq]
  intro c hc
  simpa using (List.mem_filter.mp hc).2

theorem calculate_of_all_gt (s : ImageLargestContentfulPaintCalculator)
    (t g now : Instant) (h : ∀ c ∈ s.candidates, g < c.epoch) :
    s.calculate_largest_contentful_paint t g now =
      (s, s.largest_image.map (LargestContentfulPaint.ofCandidate now)) := by
  rw [calculate_eq]
  have h1 : s.candidates.filter (fun c => decide (g < c.epoch)) = s.candidates :=
    List.filter_eq_self.mpr fun c hc => by simpa using h c hc
  have h2 : (s.candidates.filter fun c => !decide (g < c.epoch)) = [] := by
    rw [List.filter_eq_nil_iff]
    intro c hc
    simpa using h c hc
  rw [h1, h2]
  cases s
  rfl

/-! ## Lemmas about `pick_largest_contentful_paint` -/

theorem pick_some_snd_size_le (a : Option LargestContentfulPaint)
    (b : LargestContentfulPaint) :
    ∃ r, LargestContentfulPaintDetector.pick_largest_contentful_paint a (some b) =
        some r ∧ b.size ≤ r.size := by
  cases a with
  | none => exact ⟨b, rfl, le_rfl⟩
  | some x =>
    by_cases h : x.size > b.size ∨ (x.size = b.size ∧ x.paint_time ≤ b.paint_time)
    · refine ⟨x, ?_, ?_⟩
      · simp [LargestContentfulPaintDetector.pick_largest_contentful_paint, h]
      · rcases h with h | ⟨h, _⟩
        · omega
        · omega
    · exact ⟨b, by
        simp [LargestContentfulPaintDetector.pick_largest_contentful_paint, h],
        le_rfl⟩

theorem pick_eq_fst_or_snd (a b : Option LargestContentfulPaint) :
    LargestContentfulPaintDetector.pick_largest_contentful_paint a b = a ∨
      LargestContentfulPaintDetector.pick_largest_contentful_paint a b = b := by
  cases a with
  | none =>
    cases b with
    | none => left; rfl
    | some y => right; rfl
  | some x =>
    cases b with
    | none => left; rfl
    | some y =>
      by_cases h : x.size > y.size ∨ (x.size = y.size ∧ x.paint_time ≤ y.paint_time)
      · left
        simp [LargestContentfulPaintDetector.pick_largest_contentful_paint, h]
      · right
        simp [LargestContentfulPaintDetector.pick_largest_contentful_paint, h]

theorem pick_idem (a b : Option LargestContentfulPaint) :
    LargestContentfulPaintDetector.pick_largest_contentful_paint a
        (LargestContentfulPaintDetector.pick_largest_contentful_paint a b) =
      LargestContentfulPaintDetector.pick_largest_contentful_paint a b := by
  have hself : ∀ x : LargestContentfulPaint,
      LargestContentfulPaintDetector.pick_largest_contentful_paint
        (some x) (some x) = some x := by
    intro x
    have hc : x.size > x.size ∨ (x.size = x.size ∧ x.paint_time ≤ x.paint_time) :=
      Or.inr ⟨rfl, le_rfl⟩
    simp [LargestContentfulPaintDetector.pick_largest_contentful_paint, hc]
  cases a with
  | none => cases b <;> rfl
  | some x =>
    cases b with
    | none => exact hself x
    | some y =>
      by_cases h : x.size > y.size ∨ (x.size = y.size ∧ x.paint_time ≤ y.paint_time)
      · have hp : LargestContentfulPaintDetector.pick_largest_contentful_paint
            (some x) (some y) = some x := by
          simp [LargestContentfulPaintDetector.pick_largest_contentful_paint, h]
        rw [hp]
        exact hself x
      · have hp : LargestContentfulPaintDetector.pick_largest_contentful_paint
            (some x) (some y) = some y := by
          simp [LargestContentfulPaintDetector.pick_largest_contentful_paint, h]
        rw [hp, hp]

/-- Closed form of the detector's `calculate_largest_contentful_paint`. -/
theorem detector_calc_eq (d : LargestContentfulPaintDetector) (t : Instant)
    (g : Epoch) (p : PipelineId) (now : Instant) :
    d.calculate_largest_contentful_paint t g p now =
      (d.setCalc p
          ⟨(resolvedImage d t g p now).1,
            if pickedCandidate d t g p now = (d.getCalc p).lcp then (d.getCalc p).lcp
            else pickedCandidate d t g p now⟩,
        if pickedCandidate d t g p now = (d.getCalc p).lcp then none
        else pickedCandidate d t g p now) := by
  unfold LargestContentfulPaintDetector.calculate_largest_contentful_paint
    pickedCandidate resolvedImage
  by_cases hc : LargestContentfulPaintDetector.pick_largest_contentful_paint
      ((d.getCalc p).image_calculator.calculate_largest_contentful_paint t g now).2
      (d.getCalc p).lcp = (d.getCalc p).lcp
  · simp [hc]
  · simp [hc]

theorem pendingOf_after_calc (d : LargestContentfulPaintDetector) (t : Instant)
    (g : Epoch) (p : PipelineId) (now : Instant) :
    pendingOf (d.calculate_largest_contentful_paint t g p now).1 p =
      (resolvedImage d t g p now).1.candidates := by
  rw [detector_calc_eq]
  simp [pendingOf, setCalc_self]

/-- Claim C9: resolving against a never-seen pipeline does not fail: it returns
`None`, installs fresh empty calculator state for that pipeline, and leaves
every other pipeline's state unchanged. -/
theorem c9_unknown_pipeline_totality (d : LargestContentfulPaintDetector)
    (p : PipelineId) (t : Instant) (g : Epoch) (now : Instant)
    (h : d.lcp_calculators p = none) :
    (d.calculate_largest_contentful_paint t g p now).2 = none ∧
      (d.calculate_largest_contentful_paint t g p now).1.lcp_calculators p =
        some freshCalculator ∧
      ∀ q, q ≠ p →
        (d.calculate_largest_contentful_paint t g p now).1.lcp_calculators q =
          d.lcp_calculators q := by
  have hcal : d.getCalc p = freshCalculator := by
    simp [LargestContentfulPaintDetector.getCalc, h]
  have hstep : d.calculate_largest_contentful_paint t g p now =
      (d.setCalc p freshCalculator, none) := by
    unfold LargestContentfulPaintDetector.calculate_largest_contentful_paint
    rw [hcal]
    rfl
  rw [hstep]
  exact ⟨rfl, setCalc_self d p freshCalculator,
    fun q hq => setCalc_ne d p q freshCalculator hq⟩

/-- Claim C3: `calculate_largest_contentful_paint` returns `None` exactly when
the candidate picked from the newly resolved image candidate and the stored
`lcp` equals the stored `lcp`, and otherwise stores and returns the picked
value; in particular an immediately repeated call with the same pipeline, paint
time and confirmed generation returns `None`. -/
theorem c3_change_gated_emission (d : LargestContentfulPaintDetector)
    (p : PipelineId) (t : Instant) (g : Epoch) (now : Instant) :
    ((d.calculate_largest_contentful_paint t g p now).2 =
        (if pickedCandidate d t g p now = (d.getCalc p).lcp then none
          else pickedCandidate d t g p now) ∧
      lcpOf (d.calculate_largest_contentful_paint t g p now).1 p =
        (if pickedCandidate d t g p now = (d.getCalc p).lcp then (d.getCalc p).lcp
          else pickedCandidate d t g p now)) ∧
    ((d.calculate_largest_contentful_paint t g p now).1.calculate_largest_contentful_paint
        t g p now).2 = none := by
  refine ⟨⟨?_, ?_⟩, ?_⟩
  · rw [detector_calc_eq]
  · rw [detector_calc_eq]
    simp [lcpOf, setCalc_self]
  · have hcal1 : ((d.calculate_largest_contentful_paint t g p now).1).getCalc p =
        ⟨(resolvedImage d t g p now).1,
          if pickedCandidate d t g p now = (d.getCalc p).lcp then (d.getCalc p).lcp
          else pickedCandidate d t g p now⟩ := by
      rw [detector_calc_eq]
      simp [LargestContentfulPaintDetector.getCalc, setCalc_self]
    have hsnd2 : (resolvedImage d t g p now).2 =
        (resolvedImage d t g p now).1.largest_image.map
          (LargestContentfulPaint.ofCandidate now) :=
      calculate_snd_eq (d.getCalc p).image_calculator t g now
    have hstate : (resolvedImage d t g p now).1.calculate_largest_contentful_paint
        t g now = ((resolvedImage d t g p now).1, (resolvedImage d t g p now).2) := by
      rw [calculate_of_all_gt (resolvedImage d t g p now).1 t g now
        (calculate_pending_gt (d.getCalc p).image_calculator t g now), hsnd2]
    have hpicked1 : pickedCandidate (d.calculate_largest_contentful_paint t g p now).1
        t g p now =
        LargestContentfulPaintDetector.pick_largest_contentful_paint
          (resolvedImage d t g p now).2
          (if pickedCandidate d t g p now = (d.getCalc p).lcp then (d.getCalc p).lcp
            else pickedCandidate d t g p now) := by
      unfold pickedCandidate resolvedImage
      rw [hcal1]
      rw [show (⟨(resolvedImage d t g p now).1,
          if pickedCandidate d t g p now = (d.getCalc p).lcp then (d.getCalc p).lcp
          else pickedCandidate d t g p now⟩ :
          LargestContentfulPaintCalculator).image_calculator =
        (resolvedImage d t g p now).1 from rfl]
      rw [hstate]
      rfl
    have hpc : LargestContentfulPaintDetector.pick_largest_contentful_paint
        (resolvedImage d t g p now).2 (d.getCalc p).lcp =
        pickedCandidate d t g p now := rfl
    rw [detector_calc_eq ((d.calculate_largest_contentful_paint t g p now).1) t g p now]
    rw [hpicked1, hcal1]
    by_cases hc : pickedCandidate d t g p now = (d.getCalc p).lcp
    · rw [if_pos hc, hpc]
      simp [hc]
    · rw [if_neg hc, ← hpc, pick_idem]
      simp

/-- Claim C5, counterexample: after confirming generation 5 and then appending a
candidate of generation 2, the pending vector holds a candidate whose generation
does not exceed the largest confirmed-painted generation observed so far. -/
theorem c5_counterexample :
    ∃ c ∈ pendingOf (runDetector 0 LargestContentfulPaintDetector.new
        [DetectorOp.calculate 0 10 5,
          DetectorOp.append 0 ⟨some (ImageCandidate.new 1 7 2)⟩]) 0,
      ∃ g ∈ confirmedEpochs
          [DetectorOp.calculate 0 10 5,
            DetectorOp.append 0 ⟨some (ImageCandidate.new 1 7 2)⟩] 0,
        ¬ g < c.epoch := by
  decide

/-- Claim C5, amended: immediately after each
`calculate_largest_contentful_paint` call with confirmed generation `g`, every
pending candidate of that pipeline has generation exceeding `g` (an append may
transiently reintroduce a candidate of an older generation afterwards). -/
theorem c5_pending_generation (d : LargestContentfulPaintDetector)
    (p : PipelineId) (t : Instant) (g : Epoch) (now : Instant) :
    ∀ c ∈ pendingOf (stepDetector now d (DetectorOp.calculate p t g)).1 p,
      g < c.epoch := by
  intro c hc
  have hp : pendingOf (stepDetector now d (DetectorOp.calculate p t g)).1 p =
      (resolvedImage d t g p now).1.candidates :=
    pendingOf_after_calc d t g p now
  rw [hp] at hc
  exact calculate_pending_gt (d.getCalc p).image_calculator t g now c hc

theorem c5_pending_generation_witness :
    ImageCandidate.new 1 5 9 ∈
        pendingOf (stepDetector 0
          ⟨fun q => if q = 0 then
              some ⟨⟨[ImageCandidate.new 1 5 9], none⟩, none⟩
            else none⟩
          (DetectorOp.calculate 0 2 3)).1 0 ∧
      3 < (ImageCandidate.new 1 5 9).epoch :=
  ⟨by decide,
    c5_pending_generation
      ⟨fun q => if q = 0 then some ⟨⟨[ImageCandidate.new 1 5 9], none⟩, none⟩ else none⟩
      0 2 3 0 (ImageCandidate.new 1 5 9) (by decide)⟩

/-- The stored `lcp` size of any pipeline can only grow across a single
detector operation. -/
theorem lcpOf_mono_step (now : Instant) (d : LargestContentfulPaintDetector)
    (op : DetectorOp) (p : PipelineId) (l : LargestContentfulPaint)
    (h : lcpOf d p = some l) :
    ∃ l2, lcpOf (stepDetector now d op).1 p = some l2 ∧ l.size ≤ l2.size := by
  obtain ⟨cal, hcal, hlcp⟩ : ∃ cal, d.lcp_calculators p = some cal ∧ cal.lcp = some l := by
    unfold lcpOf at h
    cases hc : d.lcp_calculators p with
    | none => rw [hc] at h; simp at h
    | some cal => rw [hc] at h; exact ⟨cal, rfl, h⟩
  cases op with
  | append q cs =>
    show ∃ l2, lcpOf (d.append_lcp_candidates q cs, none).1 p = some l2 ∧ _
    unfold LargestContentfulPaintDetector.append_lcp_candidates
    cases cs.image_candidate with
    | none => exact ⟨l, h, le_rfl⟩
    | some c =>
      by_cases hpq : p = q
      · subst hpq
        have hget : d.getCalc p = cal := by
          simp [LargestContentfulPaintDetector.getCalc, hcal]
        refine ⟨l, ?_, le_rfl⟩
        simp [lcpOf, setCalc_self, hget, hlcp]
      · refine ⟨l, ?_, le_rfl⟩
        simpa [lcpOf, setCalc_ne d q p _ hpq, hcal] using hlcp
  | calculate q t g =>
    show ∃ l2, lcpOf (d.calculate_largest_contentful_paint t g q now).1 p = some l2 ∧ _
    by_cases hpq : p = q
    · subst hpq
      have hget : d.getCalc p = cal := by
        simp [LargestContentfulPaintDetector.getCalc, hcal]
      rw [detector_calc_eq]
      by_cases hpick : pickedCandidate d t g p now = (d.getCalc p).lcp
      · refine ⟨l, ?_, le_rfl⟩
        simp [lcpOf, setCalc_self, hpick, hget, hlcp]
      · have hcand : pickedCandidate d t g p now =
            LargestContentfulPaintDetector.pick_largest_contentful_paint
              (resolvedImage d t g p now).2 (some l) := by
          unfold pickedCandidate
          rw [hget, hlcp]
        obtain ⟨r, hr, hrs⟩ := pick_some_snd_size_le (resolvedImage d t g p now).2 l
        refine ⟨r, ?_, hrs⟩
        simp [lcpOf, setCalc_self, hpick, hcand, hr]
        exact fun hx => hx.symm
    · refine ⟨l, ?_, le_rfl⟩
      rw [detector_calc_eq]
      simpa [lcpOf, setCalc_ne d q p _ hpq, hcal] using hlcp

/-- Claim C1: across any operation sequence, the stored `lcp` of a pipeline
stays present and its size never decreases (hence the sizes of successive
non-`None` results are non-decreasing). -/
theorem c1_monotonic_size (now : Instant) (d : LargestContentfulPaintDetector)
    (ops : List DetectorOp) (p : PipelineId) (l : LargestContentfulPaint)
    (h : lcpOf d p = some l) :
    ∃ l2, lcpOf (runDetector now d ops) p = some l2 ∧ l.size ≤ l2.size := by
  induction ops generalizing d l with
  | nil => exact ⟨l, h, le_rfl⟩
  | cons op rest ih =>
    obtain ⟨l1, h1, hs1⟩ := lcpOf_mono_step now d op p l h
    obtain ⟨l2, h2, hs2⟩ := ih (stepDetector now d op).1 l1 h1
    exact ⟨l2, by simpa [runDetector] using h2, le_trans hs1 hs2⟩

theorem c1_monotonic_size_witness :
    lcpOf (⟨fun q => if q = 0 then some ⟨⟨[], none⟩, some ⟨1, 5, 3⟩⟩ else none⟩ :
        LargestContentfulPaintDetector) 0 = some ⟨1, 5, 3⟩ ∧
      ∃ l2, lcpOf (runDetector 0
          ⟨fun q => if q = 0 then some ⟨⟨[], none⟩, some ⟨1, 5, 3⟩⟩ else none⟩
          [DetectorOp.append 0 ⟨some (ImageCandidate.new 2 9 1)⟩,
            DetectorOp.calculate 0 4 1]) 0 = some l2 ∧
        (⟨1, 5, 3⟩ : LargestContentfulPaint).size ≤ l2.size :=
  ⟨by decide,
    c1_monotonic_size 0
      ⟨fun q => if q = 0 then some ⟨⟨[], none⟩, some ⟨1, 5, 3⟩⟩ else none⟩
      [DetectorOp.append 0 ⟨some (ImageCandidate.new 2 9 1)⟩, DetectorOp.calculate 0 4 1]
      0 ⟨1, 5, 3⟩ (by decide)⟩

/-- Claim C4: two candidates of equal size with assigned paint times t1 < t2
resolve, in either folding order, to the candidate stamped t1. -/
theorem c4_tie_break_stability (tag1 tag2 sz e1 e2 : Nat) (t1 t2 now : Instant)
    (h : t1 < t2) :
    foldLargest now (foldLargest now none ⟨tag1, sz, e1, some t1⟩)
        ⟨tag2, sz, e2, some t2⟩ = some ⟨tag1, sz, e1, some t1⟩ ∧
      foldLargest now (foldLargest now none ⟨tag2, sz, e2, some t2⟩)
        ⟨tag1, sz, e1, some t1⟩ = some ⟨tag1, sz, e1, some t1⟩ := by
  constructor
  · have hcond : ¬(sz < sz ∨ (sz = sz ∧ t2 < t1)) := by
      rintro (hlt | ⟨-, hlt⟩)
      · exact absurd hlt (lt_irrefl sz)
      · exact absurd hlt (Nat.lt_asymm h)
    rw [show foldLargest now (foldLargest now none ⟨tag1, sz, e1, some t1⟩)
          ⟨tag2, sz, e2, some t2⟩ =
        if sz < sz ∨ (sz = sz ∧ t2 < t1) then
          some (⟨tag2, sz, e2, some t2⟩ : ImageCandidate)
        else some (⟨tag1, sz, e1, some t1⟩ : ImageCandidate) from rfl]
    rw [if_neg hcond]
  · have hcond : sz < sz ∨ (sz = sz ∧ t1 < t2) := Or.inr ⟨rfl, h⟩
    rw [show foldLargest now (foldLargest now none ⟨tag2, sz, e2, some t2⟩)
          ⟨tag1, sz, e1, some t1⟩ =
        if sz < sz ∨ (sz = sz ∧ t1 < t2) then
          some (⟨tag1, sz, e1, some t1⟩ : ImageCandidate)
        else some (⟨tag2, sz, e2, some t2⟩ : ImageCandidate) from rfl]
    rw [if_pos hcond]

theorem c9_unknown_pipeline_totality_witness :
    LargestContentfulPaintDetector.new.lcp_calculators 0 = none ∧
      ((LargestContentfulPaintDetector.new.calculate_largest_contentful_paint
          5 2 0 7).2 = none ∧
        (LargestContentfulPaintDetector.new.calculate_largest_contentful_paint
          5 2 0 7).1.lcp_calculators 0 = some freshCalculator ∧
        ∀ q, q ≠ 0 →
          (LargestContentfulPaintDetector.new.calculate_largest_contentful_paint
            5 2 0 7).1.lcp_calculators q =
            LargestContentfulPaintDetector.new.lcp_calculators q) :=
  ⟨rfl, c9_unknown_pipeline_totality LargestContentfulPaintDetector.new 0 5 2 7 rfl⟩

/-- The code's fold body agrees with the spec's fold rule once both candidates
carry a stamp (so the `now()` fallback plays no role). -/
theorem foldLargest_eq_spec (now : Instant) (li c : ImageCandidate)
    (tb tc : Instant) (hli : li.paint_time = some tb) (hc : c.paint_time = some tc) :
    foldLargest now (some li) c = resolveFoldSpec (some li) c := by
  unfold foldLargest resolveFoldSpec
  have hiff : (li.size < c.size ∨ (li.size = c.size ∧
      li.paint_time_or_now now > c.paint_time_or_now now)) ↔
      (c.size > li.size ∨ (c.size = li.size ∧
        c.paint_time.getD 0 < li.paint_time.getD 0)) := by
    unfold ImageCandidate.paint_time_or_now
    rw [hli, hc]
    simp only [Option.getD_some]
    exact or_congr Iff.rfl (and_congr eq_comm Iff.rfl)
  exact if_congr hiff rfl rfl

theorem resolveFoldSpec_cases (b : Option ImageCandidate) (c : ImageCandidate) :
    resolveFoldSpec b c = some c ∨ resolveFoldSpec b c = b := by
  cases b with
  | none => left; rfl
  | some x =>
    by_cases h : c.size > x.size ∨ (c.size = x.size ∧
        c.paint_time.getD 0 < x.paint_time.getD 0)
    · left; simp [resolveFoldSpec, h]
    · right; simp [resolveFoldSpec, h]

/-- The code fold and the spec fold agree over any list of candidates stamped
with `t`, starting from any stamped accumulator. -/
theorem foldl_stamped_eq_spec (now t : Instant) (l : List ImageCandidate) :
    ∀ b : Option ImageCandidate, (∀ x, b = some x → x.paint_time.isSome) →
      l.foldl (fun b c => foldLargest now b { c with paint_time := some t }) b =
        l.foldl (fun b c => resolveFoldSpec b { c with paint_time := some t }) b := by
  induction l with
  | nil =>
    intro b _
    rfl
  | cons c l ih =>
    intro b hb
    have hstep : foldLargest now b { c with paint_time := some t } =
        resolveFoldSpec b { c with paint_time := some t } := by
      cases b with
      | none => rfl
      | some li =>
        obtain ⟨tb, htb⟩ := Option.isSome_iff_exists.mp (hb li rfl)
        exact foldLargest_eq_spec now li _ tb t htb rfl
    rw [List.foldl_cons, List.foldl_cons, hstep]
    apply ih
    intro x hx
    rcases resolveFoldSpec_cases b { c with paint_time := some t } with hcase | hcase
    · rw [hcase] at hx
      cases hx
      rfl
    · rw [hcase] at hx
      exact hb x hx

/-- Claim C2: a resolve call stamps every pending candidate with
`generation ≤ confirmed_generation` with the call's paint time and folds it into
`best_resolved` by the spec's rule (strictly larger size, or equal size and
strictly earlier paint time), while candidates with a later generation stay
pending, unmodified and unfolded. -/
theorem c2_resolve_postcondition (s : ImageLargestContentfulPaintCalculator)
    (t : Instant) (g : Epoch) (now : Instant)
    (h : ∀ b, s.largest_image = some b → b.paint_time.isSome) :
    (s.calculate_largest_contentful_paint t g now).1.candidates =
        s.candidates.filter (fun c => decide (g < c.epoch)) ∧
      (s.calculate_largest_contentful_paint t g now).1.largest_image =
        (s.candidates.filter fun c => !decide (g < c.epoch)).foldl
          (fun b c => resolveFoldSpec b { c with paint_time := some t })
          s.largest_image := by
  rw [calculate_eq]
  exact ⟨rfl, foldl_stamped_eq_spec now t _ s.largest_image h⟩

theorem c2_resolve_postcondition_witness :
    (∀ b, (⟨[ImageCandidate.new 1 6 2, ImageCandidate.new 2 8 9],
        some ⟨9, 5, 1, some 2⟩⟩ :
        ImageLargestContentfulPaintCalculator).largest_image = some b →
      b.paint_time.isSome) ∧
      ((⟨[ImageCandidate.new 1 6 2, ImageCandidate.new 2 8 9],
          some ⟨9, 5, 1, some 2⟩⟩ :
          ImageLargestContentfulPaintCalculator).calculate_largest_contentful_paint
            4 3 0).1.candidates =
        [ImageCandidate.new 1 6 2,
          ImageCandidate.new 2 8 9].filter (fun c => decide (3 < c.epoch)) ∧
      ((⟨[ImageCandidate.new 1 6 2, ImageCandidate.new 2 8 9],
          some ⟨9, 5, 1, some 2⟩⟩ :
          ImageLargestContentfulPaintCalculator).calculate_largest_contentful_paint
            4 3 0).1.largest_image =
        ([ImageCandidate.new 1 6 2,
          ImageCandidate.new 2 8 9].filter fun c => !decide (3 < c.epoch)).foldl
          (fun b c => resolveFoldSpec b { c with paint_time := some 4 })
          (some ⟨9, 5, 1, some 2⟩) := by
  have hsome : ∀ b, (⟨[ImageCandidate.new 1 6 2, ImageCandidate.new 2 8 9],
      some ⟨9, 5, 1, some 2⟩⟩ :
      ImageLargestContentfulPaintCalculator).largest_image = some b →
      b.paint_time.isSome := by
    intro b hb
    simp only [Option.some.injEq] at hb
    rw [← hb]
    rfl
  obtain ⟨h1, h2⟩ := c2_resolve_postcondition
    ⟨[ImageCandidate.new 1 6 2, ImageCandidate.new 2 8 9], some ⟨9, 5, 1, some 2⟩⟩
    4 3 0 hsome
  exact ⟨hsome, h1, h2⟩

theorem c4_tie_break_stability_witness :
    (10 : Instant) < 20 ∧
      (foldLargest 0 (foldLargest 0 none ⟨1, 5, 0, some 10⟩) ⟨2, 5, 0, some 20⟩ =
          some ⟨1, 5, 0, some 10⟩ ∧
        foldLargest 0 (foldLargest 0 none ⟨2, 5, 0, some 20⟩) ⟨1, 5, 0, some 10⟩ =
          some ⟨1, 5, 0, some 10⟩) :=
  ⟨by decide, c4_tie_break_stability 1 2 5 0 0 10 20 0 (by decide)⟩

/-! ## Paint-time provenance -/

theorem foldLargest_cases (now : Instant) (b : Option ImageCandidate)
    (c : ImageCandidate) :
    foldLargest now b c = some c ∨ foldLargest now b c = b := by
  cases b with
  | none => left; rfl
  | some li =>
    rw [show foldLargest now (some li) c =
        (if li.size < c.size ∨ (li.size = c.size ∧
            li.paint_time_or_now now > c.paint_time_or_now now) then some c
          else some li) from rfl]
    by_cases h : li.size < c.size ∨ (li.size = c.size ∧
        li.paint_time_or_now now > c.paint_time_or_now now)
    · left; rw [if_pos h]
    · right; rw [if_neg h]

theorem foldLargest_PT (P : Instant → Prop) (now t : Instant) (ht : P t)
    (b : Option ImageCandidate) (c : ImageCandidate) (hb : LargestPT P b) :
    LargestPT P (foldLargest now b { c with paint_time := some t }) := by
  intro x hx
  rcases foldLargest_cases now b { c with paint_time := some t } with hcase | hcase
  · rw [hcase] at hx
    cases hx
    exact ⟨t, ht, rfl⟩
  · rw [hcase] at hx
    exact hb x hx

theorem foldl_code_PT (P : Instant → Prop) (now t : Instant) (ht : P t)
    (l : List ImageCandidate) :
    ∀ b, LargestPT P b →
      LargestPT P (l.foldl
        (fun b c => foldLargest now b { c with paint_time := some t }) b) := by
  induction l with
  | nil => exact fun b hb => hb
  | cons c l ih =>
    intro b hb
    rw [List.foldl_cons]
    exact ih _ (foldLargest_PT P now t ht b c hb)

theorem calculate_PT (P : Instant → Prop)
    (s : ImageLargestContentfulPaintCalculator) (t : Instant) (g : Epoch)
    (now : Instant) (ht : P t) (hs : LargestPT P s.largest_image) :
    LargestPT P (s.calculate_largest_contentful_paint t g now).1.largest_image ∧
      ∀ v, (s.calculate_largest_contentful_paint t g now).2 = some v →
        P v.paint_time := by
  rw [calculate_eq]
  refine ⟨foldl_code_PT P now t ht _ s.largest_image hs, ?_⟩
  intro v hv
  simp only [Option.map_eq_some'] at hv
  obtain ⟨c, hc, hv2⟩ := hv
  obtain ⟨u, hu, hpt⟩ := foldl_code_PT P now t ht _ s.largest_image hs c hc
  rw [← hv2]
  simpa [LargestContentfulPaint.ofCandidate, ImageCandidate.paint_time_or_now,
    hpt] using hu

theorem getCalc_PT (P : Instant → Prop) (d : LargestContentfulPaintDetector)
    (p : PipelineId) (hd : DetectorPT P d) :
    LargestPT P (d.getCalc p).image_calculator.largest_image ∧
      ∀ l, (d.getCalc p).lcp = some l → P l.paint_time := by
  unfold LargestContentfulPaintDetector.getCalc
  cases hc : d.lcp_calculators p with
  | none =>
    refine ⟨?_, ?_⟩
    · intro x hx
      exact absurd hx (by simp [freshCalculator])
    · intro l hl
      exact absurd hl (by simp [freshCalculator])
  | some cal => simpa using hd p cal hc

theorem step_PT (P : Instant → Prop) (now : Instant)
    (d : LargestContentfulPaintDetector) (op : DetectorOp) (hd : DetectorPT P d)
    (hop : ∀ q t g, op = DetectorOp.calculate q t g → P t) :
    DetectorPT P (stepDetector now d op).1 ∧
      ∀ l, (stepDetector now d op).2 = some l → P l.paint_time := by
  cases op with
  | append q cs =>
    refine ⟨?_, fun l hl => absurd hl (by simp [stepDetector])⟩
    show DetectorPT P (d.append_lcp_candidates q cs)
    unfold LargestContentfulPaintDetector.append_lcp_candidates
    cases cs.image_candidate with
    | none => exact hd
    | some c =>
      intro p cal hcal
      by_cases hpq : p = q
      · subst hpq
        rw [setCalc_self] at hcal
        cases hcal
        exact getCalc_PT P d p hd
      · rw [setCalc_ne d q p _ hpq] at hcal
        exact hd p cal hcal
  | calculate q t g =>
    have hPt : P t := hop q t g rfl
    have hg := getCalc_PT P d q hd
    have hcalc := calculate_PT P (d.getCalc q).image_calculator t g now hPt hg.1
    have hlcp2 : ∀ l,
        (if pickedCandidate d t g q now = (d.getCalc q).lcp then (d.getCalc q).lcp
          else pickedCandidate d t g q now) = some l → P l.paint_time := by
      intro l hl
      by_cases hpick : pickedCandidate d t g q now = (d.getCalc q).lcp
      · rw [if_pos hpick] at hl
        exact hg.2 l hl
      · rw [if_neg hpick] at hl
        rcases pick_eq_fst_or_snd (resolvedImage d t g q now).2 (d.getCalc q).lcp
          with hcase | hcase
        · have : (resolvedImage d t g q now).2 = some l := by
            rw [← hcase]
            exact hl
          exact hcalc.2 l this
        · have : (d.getCalc q).lcp = some l := by
            rw [← hcase]
            exact hl
          exact hg.2 l this
    constructor
    · intro p cal hcal
      show _
      rw [show (stepDetector now d (DetectorOp.calculate q t g)).1 =
          (d.calculate_largest_contentful_paint t g q now).1 from rfl,
        detector_calc_eq] at hcal
      by_cases hpq : p = q
      · subst hpq
        rw [setCalc_self] at hcal
        cases hcal
        exact ⟨hcalc.1, hlcp2⟩
      · rw [setCalc_ne d q p _ hpq] at hcal
        exact hd p cal hcal
    · intro l hl
      have hsnd : (d.calculate_largest_contentful_paint t g q now).2 =
          (if pickedCandidate d t g q now = (d.getCalc q).lcp then none
            else pickedCandidate d t g q now) := by
        rw [detector_calc_eq]
      have hl2 : (if pickedCandidate d t g q now = (d.getCalc q).lcp then none
          else pickedCandidate d t g q now) = some l := by
        rw [← hsnd]
        exact hl
      by_cases hpick : pickedCandidate d t g q now = (d.getCalc q).lcp
      · rw [if_pos hpick] at hl2
        cases hl2
      · rw [if_neg hpick] at hl2
        exact hlcp2 l (by rw [if_neg hpick]; exact hl2)

theorem detectorPT_new (P : Instant → Prop) :
    DetectorPT P LargestContentfulPaintDetector.new := by
  intro p cal hcal
  exact absurd hcal (by simp [LargestContentfulPaintDetector.new])

theorem mem_calcTimes (ops : List DetectorOp) (q : PipelineId) (t : Instant)
    (g : Epoch) (h : DetectorOp.calculate q t g ∈ ops) : t ∈ calcTimes ops := by
  unfold calcTimes
  exact List.mem_filterMap.mpr ⟨_, h, rfl⟩

theorem run_PT (P : Instant → Prop) (now : Instant) (ops : List DetectorOp) :
    ∀ d, DetectorPT P d →
      (∀ q t g, DetectorOp.calculate q t g ∈ ops → P t) →
      DetectorPT P (runDetector now d ops) ∧
        ∀ o ∈ runOutputs now d ops, ∀ l, o = some l → P l.paint_time := by
  induction ops with
  | nil =>
    intro d hd _
    refine ⟨hd, ?_⟩
    intro o ho
    exact absurd ho (by simp [runOutputs])
  | cons op rest ih =>
    intro d hd hops
    have hstep := step_PT P now d op hd
      (fun q t g he => hops q t g (by rw [← he]; exact List.mem_cons_self _ _))
    have hrest := ih (stepDetector now d op).1 hstep.1
      (fun q t g hm => hops q t g (List.mem_cons_of_mem _ hm))
    refine ⟨by simpa [runDetector] using hrest.1, ?_⟩
    intro o ho l hl
    rw [show runOutputs now d (op :: rest) =
        (stepDetector now d op).2 ::
          runOutputs now (stepDetector now d op).1 rest from rfl] at ho
    rcases List.mem_cons.mp ho with rfl | hmem
    · exact hstep.2 l hl
    · exact hrest.2 o hmem l hl

/-! ## Independence from the wall-clock fallback -/

theorem foldLargest_now_indep (now1 now2 : Instant) (b : Option ImageCandidate)
    (c : ImageCandidate) (hb : LargestPT (fun _ => True) b)
    (hc : c.paint_time.isSome) :
    foldLargest now1 b c = foldLargest now2 b c := by
  cases b with
  | none => rfl
  | some li =>
    obtain ⟨tb, -, htb⟩ := hb li rfl
    obtain ⟨tc, htc⟩ := Option.isSome_iff_exists.mp hc
    rw [show foldLargest now1 (some li) c =
        (if li.size < c.size ∨ (li.size = c.size ∧
            li.paint_time_or_now now1 > c.paint_time_or_now now1) then some c
          else some li) from rfl,
      show foldLargest now2 (some li) c =
        (if li.size < c.size ∨ (li.size = c.size ∧
            li.paint_time_or_now now2 > c.paint_time_or_now now2) then some c
          else some li) from rfl,
      show li.paint_time_or_now now1 = tb by
        simp [ImageCandidate.paint_time_or_now, htb],
      show li.paint_time_or_now now2 = tb by
        simp [ImageCandidate.paint_time_or_now, htb],
      show c.paint_time_or_now now1 = tc by
        simp [ImageCandidate.paint_time_or_now, htc],
      show c.paint_time_or_now now2 = tc by
        simp [ImageCandidate.paint_time_or_now, htc]]

theorem foldl_code_now_indep (now1 now2 t : Instant) (l : List ImageCandidate) :
    ∀ b, LargestPT (fun _ => True) b →
      l.foldl (fun b c => foldLargest now1 b { c with paint_time := some t }) b =
        l.foldl (fun b c => foldLargest now2 b { c with paint_time := some t }) b := by
  induction l with
  | nil => exact fun b _ => rfl
  | cons c l ih =>
    intro b hb
    rw [List.foldl_cons, List.foldl_cons,
      foldLargest_now_indep now1 now2 b { c with paint_time := some t } hb rfl]
    exact ih _ (foldLargest_PT (fun _ => True) now2 t trivial b c hb)

theorem map_ofCandidate_now_indep (now1 now2 : Instant)
    (b : Option ImageCandidate) (hb : LargestPT (fun _ => True) b) :
    b.map (LargestContentfulPaint.ofCandidate now1) =
      b.map (LargestContentfulPaint.ofCandidate now2) := by
  cases b with
  | none => rfl
  | some c =>
    obtain ⟨u, -, hu⟩ := hb c rfl
    simp [LargestContentfulPaint.ofCandidate, ImageCandidate.paint_time_or_now, hu]

theorem calculate_now_indep (s : ImageLargestContentfulPaintCalculator)
    (t : Instant) (g : Epoch) (now1 now2 : Instant)
    (hs : LargestPT (fun _ => True) s.largest_image) :
    s.calculate_largest_contentful_paint t g now1 =
      s.calculate_largest_contentful_paint t g now2 := by
  rw [calculate_eq, calculate_eq,
    foldl_code_now_indep now1 now2 t _ s.largest_image hs,
    map_ofCandidate_now_indep now1 now2 _
      (foldl_code_PT (fun _ => True) now2 t trivial _ s.largest_image hs)]

theorem step_now_indep (d : LargestContentfulPaintDetector) (op : DetectorOp)
    (now1 now2 : Instant) (hd : DetectorPT (fun _ => True) d) :
    stepDetector now1 d op = stepDetector now2 d op := by
  cases op with
  | append q cs => rfl
  | calculate q t g =>
    show d.calculate_largest_contentful_paint t g q now1 =
      d.calculate_largest_contentful_paint t g q now2
    have hres : resolvedImage d t g q now1 = resolvedImage d t g q now2 :=
      calculate_now_indep (d.getCalc q).image_calculator t g now1 now2
        (getCalc_PT (fun _ => True) d q hd).1
    have hpick : pickedCandidate d t g q now1 = pickedCandidate d t g q now2 := by
      unfold pickedCandidate
      rw [hres]
    rw [detector_calc_eq d t g q now1, detector_calc_eq d t g q now2, hres, hpick]

theorem run_now_indep (ops : List DetectorOp) :
    ∀ d, DetectorPT (fun _ => True) d → ∀ now1 now2 : Instant,
      runDetector now1 d ops = runDetector now2 d ops ∧
        runOutputs now1 d ops = runOutputs now2 d ops := by
  induction ops with
  | nil => exact fun d _ now1 now2 => ⟨rfl, rfl⟩
  | cons op rest ih =>
    intro d hd now1 now2
    have hstep := step_now_indep d op now1 now2 hd
    have hv : DetectorPT (fun _ => True) (stepDetector now2 d op).1 :=
      (step_PT (fun _ => True) now2 d op hd (fun _ _ _ _ => trivial)).1
    have hrest := ih (stepDetector now2 d op).1 hv now1 now2
    constructor
    · show runDetector now1 (stepDetector now1 d op).1 rest =
        runDetector now2 (stepDetector now2 d op).1 rest
      rw [hstep]
      exact hrest.1
    · show (stepDetector now1 d op).2 ::
          runOutputs now1 (stepDetector now1 d op).1 rest =
        (stepDetector now2 d op).2 ::
          runOutputs now2 (stepDetector now2 d op).1 rest
      rw [hstep]
      exact congrArg _ hrest.2

/-- Claim C10: every candidate stored in `largest_image` after any operation
sequence carries a stamp that was a paint time passed to some resolve call,
every emitted paint time is such a stamp, and states and outputs are
independent of the `now()` fallback (it is never exercised). -/
theorem c10_paint_time_provenance (ops : List DetectorOp)
    (now now1 now2 : Instant) :
    (∀ p cal,
        (runDetector now LargestContentfulPaintDetector.new ops).lcp_calculators p =
          some cal →
        ∀ c, cal.image_calculator.largest_image = some c →
          ∃ t ∈ calcTimes ops, c.paint_time = some t) ∧
      (∀ o ∈ runOutputs now LargestContentfulPaintDetector.new ops, ∀ l,
        o = some l → l.paint_time ∈ calcTimes ops) ∧
      runDetector now1 LargestContentfulPaintDetector.new ops =
        runDetector now2 LargestContentfulPaintDetector.new ops ∧
      runOutputs now1 LargestContentfulPaintDetector.new ops =
        runOutputs now2 LargestContentfulPaintDetector.new ops := by
  have h1 := run_PT (fun u => u ∈ calcTimes ops) now ops
    LargestContentfulPaintDetector.new (detectorPT_new _)
    (fun q t g hm => mem_calcTimes ops q t g hm)
  have h2 := run_now_indep ops LargestContentfulPaintDetector.new
    (detectorPT_new _) now1 now2
  refine ⟨?_, ?_, h2.1, h2.2⟩
  · intro p cal hcal c hc
    obtain ⟨u, hu, hpt⟩ := (h1.1 p cal hcal).1 c hc
    exact ⟨u, hu, hpt⟩
  · exact fun o ho l hl => h1.2 o ho l hl

theorem c10_paint_time_provenance_witness :
    ∃ t ∈ calcTimes [DetectorOp.append 0 ⟨some (ImageCandidate.new 1 4 1)⟩,
        DetectorOp.calculate 0 7 1],
      (⟨1, 4, 1, some 7⟩ : ImageCandidate).paint_time = some t :=
  (c10_paint_time_provenance
      [DetectorOp.append 0 ⟨some (ImageCandidate.new 1 4 1)⟩,
        DetectorOp.calculate 0 7 1] 3 3 9).1 0
    ⟨⟨[], some ⟨1, 4, 1, some 7⟩⟩, some ⟨1, 4, 7⟩⟩ (by decide)
    ⟨1, 4, 1, some 7⟩ rfl

/-! ## Geometry lemmas -/

theorem translation_point (tx ty x y : ℚ) :
    (Transform3D.translation tx ty).transform_point2d x y = some (x + tx, y + ty) := by
  unfold Transform3D.transform_point2d Transform3D.translation
  rw [if_pos (by norm_num)]
  simp only [Option.some.injEq, Prod.mk.injEq]
  constructor <;> ring

theorem translation_outer (tx ty : ℚ) (rect : Box2D)
    (hx : rect.minX ≤ rect.maxX) (hy : rect.minY ≤ rect.maxY) :
    (Transform3D.translation tx ty).outer_transformed_box2d rect =
      some ⟨rect.minX + tx, rect.minY + ty, rect.maxX + tx, rect.maxY + ty⟩ := by
  unfold Transform3D.outer_transformed_box2d
  rw [translation_point, translation_point, translation_point, translation_point]
  show some (Box2D.from_points4 (rect.minX + tx, rect.minY + ty)
      (rect.maxX + tx, rect.minY + ty) (rect.maxX + tx, rect.maxY + ty)
      (rect.minX + tx, rect.maxY + ty)) = _
  unfold Box2D.from_points4
  have e1 : min (min (rect.minX + tx) (rect.maxX + tx))
      (min (rect.maxX + tx) (rect.minX + tx)) = rect.minX + tx := by
    rw [min_comm (rect.maxX + tx) (rect.minX + tx), min_self]
    exact min_eq_left (by linarith)
  have e2 : min (min (rect.minY + ty) (rect.minY + ty))
      (min (rect.maxY + ty) (rect.maxY + ty)) = rect.minY + ty := by
    rw [min_self, min_self]
    exact min_eq_left (by linarith)
  have e3 : max (max (rect.minX + tx) (rect.maxX + tx))
      (max (rect.maxX + tx) (rect.minX + tx)) = rect.maxX + tx := by
    rw [max_comm (rect.maxX + tx) (rect.minX + tx), max_self]
    exact max_eq_right (by linarith)
  have e4 : max (max (rect.minY + ty) (rect.minY + ty))
      (max (rect.maxY + ty) (rect.maxY + ty)) = rect.maxY + ty := by
    rw [max_self, max_self]
    exact max_eq_right (by linarith)
  rw [e1, e2, e3, e4]

/-- Claim C8: a reference frame whose transform is a pure translation maps a
proper rectangle to the rectangle translated by the transform and the frame
origin, preserving width, height and area. -/
theorem c8_translation_preserves_area (scrollTree : ScrollTree) (sid : Nat)
    (ox oy tx ty : ℚ) (rect : Box2D)
    (hnode : (scrollTree.get_node sid).info =
      SpatialTreeNodeInfo.referenceFrame ox oy (Transform3D.translation tx ty))
    (hx : rect.minX ≤ rect.maxX) (hy : rect.minY ≤ rect.maxY) :
    apply_transform_to_visual_rect scrollTree sid rect =
        (rect.translate (tx + ox) (ty + oy), (scrollTree.get_node sid).parent) ∧
      (rect.translate (tx + ox) (ty + oy)).width = rect.width ∧
      (rect.translate (tx + ox) (ty + oy)).height = rect.height ∧
      (rect.translate (tx + ox) (ty + oy)).area = rect.area := by
  refine ⟨?_, ?_, ?_, ?_⟩
  · show ((match (scrollTree.get_node sid).info with
        | SpatialTreeNodeInfo.referenceFrame ox oy tr =>
          match tr.outer_transformed_box2d rect with
          | some r => r.translate ox oy
          | none => Box2D.zero
        | SpatialTreeNodeInfo.other => rect),
      (scrollTree.get_node sid).parent) = _
    rw [hnode]
    show ((match (Transform3D.translation tx ty).outer_transformed_box2d rect with
        | some r => r.translate ox oy
        | none => Box2D.zero),
      (scrollTree.get_node sid).parent) = _
    rw [translation_outer tx ty rect hx hy]
    show ((⟨rect.minX + tx, rect.minY + ty, rect.maxX + tx, rect.maxY + ty⟩ :
        Box2D).translate ox oy, (scrollTree.get_node sid).parent) = _
    unfold Box2D.translate
    simp only [Prod.mk.injEq, Box2D.mk.injEq]
    refine ⟨⟨by ring, by ring, by ring, by ring⟩, trivial⟩
  · unfold Box2D.translate Box2D.width
    ring
  · unfold Box2D.translate Box2D.height
    ring
  · unfold Box2D.translate Box2D.area Box2D.width Box2D.height
    ring

theorem c8_translation_preserves_area_witness :
    ((⟨[⟨some 3, SpatialTreeNodeInfo.referenceFrame 1 2
          (Transform3D.translation 4 5)⟩]⟩ : ScrollTree).get_node 0).info =
        SpatialTreeNodeInfo.referenceFrame 1 2 (Transform3D.translation 4 5) ∧
      (0 : ℚ) ≤ 6 ∧ (0 : ℚ) ≤ 7 ∧
      (apply_transform_to_visual_rect
          ⟨[⟨some 3, SpatialTreeNodeInfo.referenceFrame 1 2
            (Transform3D.translation 4 5)⟩]⟩ 0 ⟨0, 0, 6, 7⟩ =
          ((⟨0, 0, 6, 7⟩ : Box2D).translate (4 + 1) (5 + 2), some 3) ∧
        ((⟨0, 0, 6, 7⟩ : Box2D).translate (4 + 1) (5 + 2)).width =
          (⟨0, 0, 6, 7⟩ : Box2D).width ∧
        ((⟨0, 0, 6, 7⟩ : Box2D).translate (4 + 1) (5 + 2)).height =
          (⟨0, 0, 6, 7⟩ : Box2D).height ∧
        ((⟨0, 0, 6, 7⟩ : Box2D).translate (4 + 1) (5 + 2)).area =
          (⟨0, 0, 6, 7⟩ : Box2D).area) := by
  refine ⟨rfl, by norm_num, by norm_num, ?_⟩
  have h := c8_translation_preserves_area
    ⟨[⟨some 3, SpatialTreeNodeInfo.referenceFrame 1 2 (Transform3D.translation 4 5)⟩]⟩
    0 1 2 4 5 ⟨0, 0, 6, 7⟩ rfl (by norm_num) (by norm_num)
  exact h

theorem thin_empty_area (b : Box2D) (h1 : b.maxX = b.minX) :
    b.is_empty = true ∧ b.area = 0 := by
  constructor
  · simp only [Box2D.is_empty, Bool.or_eq_true, decide_eq_true_eq]
    exact Or.inl (le_of_eq h1)
  · simp [Box2D.area, Box2D.width, h1]

/-- Once a rectangle has collapsed to `Box2D::zero()`, applying any scroll
node's transform leaves it empty with zero area. -/
theorem transform_zero_flat (st : ScrollTree) (sid : Nat) :
    (apply_transform_to_visual_rect st sid Box2D.zero).1.is_empty = true ∧
      (apply_transform_to_visual_rect st sid Box2D.zero).1.area = 0 := by
  have hshow : (apply_transform_to_visual_rect st sid Box2D.zero).1 =
      (match (st.get_node sid).info with
        | SpatialTreeNodeInfo.referenceFrame ox oy tr =>
          match tr.outer_transformed_box2d Box2D.zero with
          | some r => r.translate ox oy
          | none => Box2D.zero
        | SpatialTreeNodeInfo.other => Box2D.zero) := rfl
  rw [hshow]
  cases hinfo : (st.get_node sid).info with
  | other => exact thin_empty_area Box2D.zero rfl
  | referenceFrame ox oy tr =>
    show (match tr.outer_transformed_box2d Box2D.zero with
        | some r => r.translate ox oy
        | none => Box2D.zero).is_empty = true ∧
      (match tr.outer_transformed_box2d Box2D.zero with
        | some r => r.translate ox oy
        | none => Box2D.zero).area = (0 : ℚ)
    cases houter : tr.outer_transformed_box2d Box2D.zero with
    | none => exact thin_empty_area Box2D.zero rfl
    | some r =>
      have hr : r.maxX = r.minX := by
        unfold Transform3D.outer_transformed_box2d at houter
        cases htp : tr.transform_point2d Box2D.zero.minX Box2D.zero.minY with
        | none =>
          rw [show Box2D.zero.maxX = Box2D.zero.minX from rfl,
            show Box2D.zero.maxY = Box2D.zero.minY from rfl, htp] at houter
          cases houter
        | some p =>
          rw [show Box2D.zero.maxX = Box2D.zero.minX from rfl,
            show Box2D.zero.maxY = Box2D.zero.minY from rfl, htp] at houter
          have hrp : r = Box2D.from_points4 p p p p := by
            cases houter
            rfl
          rw [hrp]
          unfold Box2D.from_points4
          simp [min_self, max_self]
      exact thin_empty_area (r.translate ox oy)
        (by unfold Box2D.translate; simp [hr])

/-- An empty rectangle intersects every rectangle emptily. -/
theorem intersection_of_empty (b v : Box2D) (h : b.is_empty = true) :
    b.intersection v = none := by
  have hshow : b.intersection v =
      (if (b.intersection_unchecked v).is_empty then none
        else some (b.intersection_unchecked v)) := rfl
  rw [hshow, if_pos]
  simp only [Box2D.is_empty, Bool.or_eq_true, decide_eq_true_eq] at h ⊢
  rcases h with h | h
  · exact Or.inl (le_trans (min_le_left _ _) (le_trans h (le_max_left _ _)))
  · exact Or.inr (le_trans (min_le_left _ _) (le_trans h (le_max_left _ _)))

/-- Claim C7: when the clip node looked up at the current level applies to the
current scroll node and the rectangle lies fully outside its clip rectangle,
the recursive walk returns an empty zero-area rectangle for every scroll tree
and every sufficient fuel, it stops at that level (the result equals the
single-level computation, so no ancestor level is processed), and the enclosing
`compute_visual_rect` returns `Box2D::zero()`. -/
theorem c7_clip_to_zero (clipTree : ClipStore) (cn : Clip) (sid : Nat)
    (clip_id : ClipId) (rect : Box2D)
    (hfind : getClipNode clipTree clip_id = some cn)
    (hscroll : cn.parent_scroll_node_id = sid)
    (hid : cn.id ≠ ClipId.INVALID)
    (houtside : cn.rect.intersection rect = none) :
    ∀ (scrollTree : ScrollTree) (fuel : Nat),
      ((compute_visual_rect_with_scroll_clip clipTree scrollTree (fuel + 1) rect
          (some sid) clip_id).is_empty = true ∧
        (compute_visual_rect_with_scroll_clip clipTree scrollTree (fuel + 1) rect
          (some sid) clip_id).area = 0) ∧
        compute_visual_rect_with_scroll_clip clipTree scrollTree (fuel + 1) rect
            (some sid) clip_id =
          compute_visual_rect_with_scroll_clip clipTree scrollTree 1 rect
            (some sid) clip_id ∧
        ∀ (col : LargestContentfulPaintCollector) (vw vh : ℚ),
          col.clip_tree = clipTree → col.current_scroll_node_id = sid →
          col.current_clip_id = clip_id →
          col.compute_visual_rect rect scrollTree vw vh = Box2D.zero := by
  intro scrollTree fuel
  have hclip : (getClipNode clipTree clip_id).filter
      (fun n => n.parent_scroll_node_id == sid) = some cn := by
    rw [hfind]
    simp [Option.filter, hscroll]
  have happly : apply_clip_to_visual_rect cn rect = (Box2D.zero, cn.parent_clip_id) := by
    unfold apply_clip_to_visual_rect
    rw [if_neg hid, houtside]
    rfl
  have hunfold : ∀ m : Nat,
      compute_visual_rect_with_scroll_clip clipTree scrollTree (m + 1) rect
        (some sid) clip_id =
      (if (apply_transform_to_visual_rect scrollTree sid Box2D.zero).1.is_empty then
        (apply_transform_to_visual_rect scrollTree sid Box2D.zero).1
      else
        compute_visual_rect_with_scroll_clip clipTree scrollTree m
          (apply_transform_to_visual_rect scrollTree sid Box2D.zero).1
          (apply_transform_to_visual_rect scrollTree sid Box2D.zero).2
          cn.parent_clip_id) := by
    intro m
    simp only [compute_visual_rect_with_scroll_clip, hclip, happly]
  have hflat := transform_zero_flat scrollTree sid
  refine ⟨⟨?_, ?_⟩, ?_, ?_⟩
  · rw [hunfold fuel, if_pos hflat.1]
    exact hflat.1
  · rw [hunfold fuel, if_pos hflat.1]
    exact hflat.2
  · rw [hunfold fuel, hunfold 0, if_pos hflat.1, if_pos hflat.1]
  · intro col vw vh hct hcs hcc
    have hw : col.compute_visual_rect rect scrollTree vw vh =
        ((compute_visual_rect_with_scroll_clip col.clip_tree scrollTree
            (scrollTree.nodes.length + 1) rect (some col.current_scroll_node_id)
            col.current_clip_id).intersection
          (Box2D.from_size vw vh)).getD Box2D.zero := rfl
    rw [hw, hct, hcs, hcc, hunfold scrollTree.nodes.length, if_pos hflat.1,
      intersection_of_empty _ _ hflat.1]
    rfl

theorem c7_clip_to_zero_witness :
    getClipNode [(⟨1, ⟨10, 10, 20, 20⟩, 0, 0⟩ : Clip)] 1 =
        some ⟨1, ⟨10, 10, 20, 20⟩, 0, 0⟩ ∧
      (⟨1, ⟨10, 10, 20, 20⟩, 0, 0⟩ : Clip).parent_scroll_node_id = 0 ∧
      (⟨1, ⟨10, 10, 20, 20⟩, 0, 0⟩ : Clip).id ≠ ClipId.INVALID ∧
      (⟨1, ⟨10, 10, 20, 20⟩, 0, 0⟩ : Clip).rect.intersection ⟨0, 0, 5, 5⟩ = none ∧
      (((compute_visual_rect_with_scroll_clip [(⟨1, ⟨10, 10, 20, 20⟩, 0, 0⟩ : Clip)]
          ⟨[⟨none, SpatialTreeNodeInfo.other⟩]⟩ 3 ⟨0, 0, 5, 5⟩ (some 0) 1).is_empty =
            true ∧
        (compute_visual_rect_with_scroll_clip [(⟨1, ⟨10, 10, 20, 20⟩, 0, 0⟩ : Clip)]
          ⟨[⟨none, SpatialTreeNodeInfo.other⟩]⟩ 3 ⟨0, 0, 5, 5⟩ (some 0) 1).area = 0) ∧
        compute_visual_rect_with_scroll_clip [(⟨1, ⟨10, 10, 20, 20⟩, 0, 0⟩ : Clip)]
            ⟨[⟨none, SpatialTreeNodeInfo.other⟩]⟩ 3 ⟨0, 0, 5, 5⟩ (some 0) 1 =
          compute_visual_rect_with_scroll_clip [(⟨1, ⟨10, 10, 20, 20⟩, 0, 0⟩ : Clip)]
            ⟨[⟨none, SpatialTreeNodeInfo.other⟩]⟩ 1 ⟨0, 0, 5, 5⟩ (some 0) 1 ∧
        ∀ (col : LargestContentfulPaintCollector) (vw vh : ℚ),
          col.clip_tree = [(⟨1, ⟨10, 10, 20, 20⟩, 0, 0⟩ : Clip)] →
          col.current_scroll_node_id = 0 → col.current_clip_id = 1 →
          col.compute_visual_rect ⟨0, 0, 5, 5⟩
            ⟨[⟨none, SpatialTreeNodeInfo.other⟩]⟩ vw vh = Box2D.zero) := by
  have hfind : getClipNode [(⟨1, ⟨10, 10, 20, 20⟩, 0, 0⟩ : Clip)] 1 =
      some ⟨1, ⟨10, 10, 20, 20⟩, 0, 0⟩ := by decide
  have houtside : (⟨1, ⟨10, 10, 20, 20⟩, 0, 0⟩ : Clip).rect.intersection
      ⟨0, 0, 5, 5⟩ = none := by decide
  refine ⟨hfind, rfl, by decide, houtside, ?_⟩
  exact c7_clip_to_zero [(⟨1, ⟨10, 10, 20, 20⟩, 0, 0⟩ : Clip)]
    ⟨1, ⟨10, 10, 20, 20⟩, 0, 0⟩ 0 1 ⟨0, 0, 5, 5⟩ hfind rfl (by decide) houtside
    ⟨[⟨none, SpatialTreeNodeInfo.other⟩]⟩ 2

/-- Claim C6, counterexample: a visible rectangle of area 1/2 has nonzero area,
yet `record_image_candidate` discards it (the `as usize` cast truncates the area
to 0), so the collector keeps no candidate where the claim requires one. -/
theorem c6_counterexample :
    ¬ ((⟨[], 0, 0, none, ⟨none⟩⟩ :
          LargestContentfulPaintCollector).compute_visual_rect ⟨0, 0, 1, 1 / 2⟩
          ⟨[⟨none, SpatialTreeNodeInfo.other⟩]⟩ 100 100).area = 0 ∧
      ((⟨[], 0, 0, none, ⟨none⟩⟩ :
          LargestContentfulPaintCollector).record_image_candidate 1 ⟨0, 0, 1, 1 / 2⟩
          100 100 ⟨[⟨none, SpatialTreeNodeInfo.other⟩]⟩ 1).largerst_image = none := by
  constructor
  · norm_num [LargestContentfulPaintCollector.compute_visual_rect,
      compute_visual_rect_with_scroll_clip, getClipNode,
      apply_transform_to_visual_rect, ScrollTree.get_node, Box2D.is_empty,
      Box2D.intersection, Box2D.intersection_unchecked, Box2D.from_size,
      List.find?, List.getD, Box2D.area, Box2D.width, Box2D.height]
  · norm_num [LargestContentfulPaintCollector.record_image_candidate,
      LargestContentfulPaintCollector.compute_visual_rect,
      compute_visual_rect_with_scroll_clip, getClipNode,
      apply_transform_to_visual_rect, ScrollTree.get_node, Box2D.is_empty,
      Box2D.intersection, Box2D.intersection_unchecked, Box2D.from_size,
      List.find?, List.getD, areaToUsize, Box2D.area, Box2D.width, Box2D.height,
      Rat.floor]

/-- Claim C6, amended: `record_image_candidate` is a no-op exactly when the
visible rectangle's area truncated to an integer (`as usize`) is zero;
otherwise it installs the new `(tag, truncated-size, generation)` candidate
exactly when none is held or the held candidate's stored size is strictly
smaller, so equal-size candidates keep the first one seen. -/
theorem c6_recording_rule (col : LargestContentfulPaintCollector) (tag : Nat)
    (rect : Box2D) (vw vh : ℚ) (st : ScrollTree) (epoch : Epoch) :
    (areaToUsize (col.compute_visual_rect rect st vw vh).area = 0 →
        col.record_image_candidate tag rect vw vh st epoch = col) ∧
      (areaToUsize (col.compute_visual_rect rect st vw vh).area ≠ 0 →
        col.largerst_image = none →
        col.record_image_candidate tag rect vw vh st epoch =
          { col with largerst_image := some (ImageCandidate.new tag
              (areaToUsize (col.compute_visual_rect rect st vw vh).area) epoch) }) ∧
      (∀ li, areaToUsize (col.compute_visual_rect rect st vw vh).area ≠ 0 →
        col.largerst_image = some li →
        col.record_image_candidate tag rect vw vh st epoch =
          if li.size < areaToUsize (col.compute_visual_rect rect st vw vh).area then
            { col with largerst_image := some (ImageCandidate.new tag
                (areaToUsize (col.compute_visual_rect rect st vw vh).area) epoch) }
          else col) := by
  have hunfold : col.record_image_candidate tag rect vw vh st epoch =
      (if areaToUsize (col.compute_visual_rect rect st vw vh).area = 0 then col
      else
        match col.largerst_image with
        | some li =>
          if li.size < areaToUsize (col.compute_visual_rect rect st vw vh).area then
            { col with largerst_image := some (ImageCandidate.new tag
                (areaToUsize (col.compute_visual_rect rect st vw vh).area) epoch) }
          else col
        | none => { col with largerst_image := some (ImageCandidate.new tag
            (areaToUsize (col.compute_visual_rect rect st vw vh).area) epoch) }) := rfl
  refine ⟨?_, ?_, ?_⟩
  · intro h
    rw [hunfold, if_pos h]
  · intro h hnone
    rw [hunfold, if_neg h, hnone]
  · intro li h hsome
    rw [hunfold, if_neg h, hsome]

theorem c6_recording_rule_witness :
    areaToUsize ((⟨[], 0, 0, none, ⟨none⟩⟩ :
        LargestContentfulPaintCollector).compute_visual_rect ⟨0, 0, 2, 3⟩
        ⟨[⟨none, SpatialTreeNodeInfo.other⟩]⟩ 100 100).area ≠ 0 ∧
      (⟨[], 0, 0, none, ⟨none⟩⟩ :
        LargestContentfulPaintCollector).largerst_image = none ∧
      (⟨[], 0, 0, none, ⟨none⟩⟩ :
          LargestContentfulPaintCollector).record_image_candidate 1 ⟨0, 0, 2, 3⟩
          100 100 ⟨[⟨none, SpatialTreeNodeInfo.other⟩]⟩ 1 =
        { (⟨[], 0, 0, none, ⟨none⟩⟩ : LargestContentfulPaintCollector) with
          largerst_image := some (ImageCandidate.new 1
            (areaToUsize ((⟨[], 0, 0, none, ⟨none⟩⟩ :
              LargestContentfulPaintCollector).compute_visual_rect ⟨0, 0, 2, 3⟩
              ⟨[⟨none, SpatialTreeNodeInfo.other⟩]⟩ 100 100).area) 1) } := by
  have h : areaToUsize ((⟨[], 0, 0, none, ⟨none⟩⟩ :
      LargestContentfulPaintCollector).compute_visual_rect ⟨0, 0, 2, 3⟩
      ⟨[⟨none, SpatialTreeNodeInfo.other⟩]⟩ 100 100).area ≠ 0 := by
    norm_num [LargestContentfulPaintCollector.compute_visual_rect,
      compute_visual_rect_with_scroll_clip, getClipNode,
      apply_transform_to_visual_rect, ScrollTree.get_node, Box2D.is_empty,
      Box2D.intersection, Box2D.intersection_unchecked, Box2D.from_size,
      List.find?, List.getD, areaToUsize, Box2D.area, Box2D.width, Box2D.height,
      Rat.floor]
  exact ⟨h, rfl,
    (c6_recording_rule ⟨[], 0, 0, none, ⟨none⟩⟩ 1 ⟨0, 0, 2, 3⟩ 100 100
      ⟨[⟨none, SpatialTreeNodeInfo.other⟩]⟩ 1).2.1 h rfl⟩

end LCPSpec
